import Mathlib

/-!
Verification of the shark-marker reconciliation core of
`simeonnv/Nasa_shark_hackaton` (file `frontend/src/Map.tsx`, the `MapGL`
component).

The embedding models:
* a JavaScript-value layer (`JsValue`) with the property-access and
  truthiness semantics the handler relies on;
* the zoom-dependent size function `getMarkerSize`;
* the `ws.onmessage` handler (`onMessage`), including its `try`/`catch`
  structure, the `!data.sharks || !Array.isArray(data.sharks)` guard, the
  `mapRef.current?.getZoom() || zoom` zoom fallback, and the per-record
  `forEach` body that updates or creates markers positionally;
* the `zoomend` listener `updateAllMarkerSizes`;
* a typed record layer (`SharkData`, `onBatch`) for batches whose records
  are well formed, related to the raw handler by a refinement lemma.

Numeric values are modelled over `ℚ` at the JSON/JavaScript layer (JSON
literals are exact decimals) and over `ℝ` at the rendering layer (rotation
conversion multiplies by `180 / π`; the size function is a real
exponential).  String/array-to-number coercion is not modelled (no claim
depends on it): coercing such values yields the NaN element of `JsNum`.
-/

noncomputable section

/-- A JavaScript value as seen by the message handler: the possible results
of `JSON.parse` together with `undefined` (the result of reading an absent
property). -/
inductive JsValue where
  | undefined : JsValue
  | null : JsValue
  | bool : Bool → JsValue
  | num : ℚ → JsValue
  | str : String → JsValue
  | arr : List JsValue → JsValue
  | obj : List (String × JsValue) → JsValue

/-- A JavaScript number produced by arithmetic: either NaN or a real. -/
inductive JsNum where
  | nan : JsNum
  | val : ℝ → JsNum

/-- Property access `v.k`, as used by `data.sharks` and by the destructuring
patterns `const { position, rotation_rad } = shark` / `const { x, y } =
position`: it throws a `TypeError` on `null`/`undefined`, returns the
field (or `undefined` when absent) on an object, and returns `undefined`
on other values. -/
def jsField : JsValue → String → Except Unit JsValue
  | .obj fields, k => .ok ((fields.lookup k).getD .undefined)
  | .null, _ => .error ()
  | .undefined, _ => .error ()
  | _, _ => .ok .undefined

/-- JavaScript truthiness, as used by `!data.sharks`. -/
def truthy : JsValue → Bool
  | .undefined => false
  | .null => false
  | .bool b => b
  | .num q => decide (q ≠ 0)
  | .str s => decide (s ≠ "")
  | .arr _ => true
  | .obj _ => true

/-- `Array.isArray`. -/
def isArray : JsValue → Bool
  | .arr _ => true
  | _ => false

/-- The element list of an array value (only read behind an `isArray`
check). -/
def asArray : JsValue → List JsValue
  | .arr xs => xs
  | _ => []

/-- Number coercion of a `JsValue`, as forced by `rotation_rad * 180`.
String/array/object coercion is approximated by NaN; no claim exercises
those inputs. -/
def toNumber : JsValue → JsNum
  | .num q => .val (q : ℝ)
  | .null => .val 0
  | .bool b => .val (if b then 1 else 0)
  | _ => .nan

/-- `(rotation_rad * 180) / Math.PI`, the radian→degree conversion applied
on both the update and the create path. -/
def rotationToDegrees (v : JsValue) : JsNum :=
  match toNumber v with
  | .nan => .nan
  | .val x => .val (x * 180 / Real.pi)

/-- The state of one marker, as far as the reconciliation logic writes it:
`setCoordinates` / the `Marker` constructor coordinates, and the symbol
fields `markerWidth`, `markerHeight`, `markerRotation`. -/
structure Marker where
  coordinates : JsValue × JsValue
  markerWidth : ℝ
  markerHeight : ℝ
  markerRotation : JsNum

/-- `sharkMarkersRef.current`: the map from batch index to marker. -/
abbrev Markers := Nat → Option Marker

/-- The initial, empty `sharkMarkersRef.current = {}`. -/
def emptyMarkers : Markers := fun _ => none

/-- `getMarkerSize`: `baseSize * Math.pow(1.3, zoomLevel - 2)` with
`baseSize = 10`. -/
def getMarkerSize (zoomLevel : ℝ) : ℝ :=
  10 * (1.3 : ℝ) ^ (zoomLevel - 2)

/-- `updateAllMarkerSizes`: returns unchanged when `mapRef.current` is
absent, otherwise recomputes the size from the current zoom and applies it
to every tracked marker. -/
def updateAllMarkerSizes (mapZoom : Option ℚ) (m : Markers) : Markers :=
  match mapZoom with
  | none => m
  | some z =>
      fun j =>
        (m j).map fun mk =>
          { mk with
            markerWidth := getMarkerSize (z : ℝ)
            markerHeight := getMarkerSize (z : ℝ) }

/-- The body of `data.sharks.forEach((shark, idx) => ...)` for one record:
destructure `position` and `rotation_rad` from the record and `x`, `y` from
the position (each destructuring of a `null`/`undefined` value throws),
then either update the marker at `idx` or create and register a new one
with the current `size`. -/
def applyShark (size : ℝ) (idx : Nat) (shark : JsValue) (m : Markers) :
    Except Unit Markers := do
  let position ← jsField shark "position"
  let rotation_rad ← jsField shark "rotation_rad"
  let x ← jsField position "x"
  let y ← jsField position "y"
  pure fun j =>
    if j = idx then
      some
        (match m idx with
         | some mk =>
             { mk with
               coordinates := (x, y)
               markerRotation := rotationToDegrees rotation_rad }
         | none =>
             { coordinates := (x, y)
               markerWidth := size
               markerHeight := size
               markerRotation := rotationToDegrees rotation_rad })
    else m j

/-- The `forEach` loop over the decoded record list, starting at index
`idx`.  A thrown error aborts the loop immediately, keeping the mutations
made so far; the `Bool` reports whether an error was thrown. -/
def runSharks (size : ℝ) : List JsValue → Nat → Markers → Markers × Bool
  | [], _, m => (m, false)
  | s :: rest, idx, m =>
      match applyShark size idx s m with
      | .ok m' => runSharks size rest (idx + 1) m'
      | .error _ => (m, true)

/-- `mapRef.current?.getZoom() || zoom`: the map's zoom when the map exists
and its zoom is truthy (nonzero), otherwise the component's `zoom` prop. -/
def effectiveZoom (mapZoom : Option ℚ) (propZoom : ℚ) : ℚ :=
  match mapZoom with
  | some z => if z ≠ 0 then z else propZoom
  | none => propZoom

/-- The `try` block of `ws.onmessage`.  `msg = none` stands for an
`event.data` on which `JSON.parse` throws.  The `Bool` reports whether the
block threw (and hence whether the `catch` logs a diagnostic). -/
def onMessageTry (mapZoom : Option ℚ) (propZoom : ℚ) (m : Markers)
    (msg : Option JsValue) : Markers × Bool :=
  match msg with
  | none => (m, true)
  | some data =>
      match jsField data "sharks" with
      | .error _ => (m, true)
      | .ok sharksVal =>
          if !truthy sharksVal || !isArray sharksVal then (m, false)
          else
            let size := getMarkerSize ((effectiveZoom mapZoom propZoom : ℚ) : ℝ)
            runSharks size (asArray sharksVal) 0 m

/-- The whole `ws.onmessage` handler: the `try` block plus the `catch`
that logs exactly one `console.error` diagnostic when the block threw.
Returns the final marker map and the number of diagnostics logged. -/
def onMessage (mapZoom : Option ℚ) (propZoom : ℚ) (m : Markers)
    (msg : Option JsValue) : Markers × Nat :=
  match onMessageTry mapZoom propZoom m msg with
  | (m', true) => (m', 1)
  | (m', false) => (m', 0)

/-- A well-formed entity record, per the `SharkData` interface of the
source. -/
structure SharkData where
  x : ℚ
  y : ℚ
  rotation_rad : ℚ
  speed : ℚ

/-- The wire form of a well-formed record. -/
def SharkData.toJs (s : SharkData) : JsValue :=
  .obj [("position", .obj [("x", .num s.x), ("y", .num s.y)]),
        ("rotation_rad", .num s.rotation_rad),
        ("speed", .num s.speed)]

/-- A well-formed wire message carrying a batch of records. -/
def mkMessage (B : List SharkData) : JsValue :=
  .obj [("sharks", .arr (B.map SharkData.toJs))]

/-- The update path of the `forEach` body on a well-formed record:
`setCoordinates([x, y])` and `updateSymbol({ markerRotation: rad→deg })`;
width and height are not touched. -/
def updateMarker (s : SharkData) (mk : Marker) : Marker :=
  { mk with
    coordinates := (.num s.x, .num s.y)
    markerRotation := .val ((s.rotation_rad : ℝ) * 180 / Real.pi) }

/-- The create path of the `forEach` body on a well-formed record: a new
marker at `[x, y]` with width and height set to the current `size` and the
converted rotation. -/
def createMarker (size : ℝ) (s : SharkData) : Marker :=
  { coordinates := (.num s.x, .num s.y)
    markerWidth := size
    markerHeight := size
    markerRotation := .val ((s.rotation_rad : ℝ) * 180 / Real.pi) }

/-- Applying one well-formed record to the previous marker slot: update it
when present, create one when absent. -/
def applyOne (size : ℝ) (s : SharkData) : Option Marker → Marker
  | some mk => updateMarker s mk
  | none => createMarker size s

/-- The `forEach` body on a well-formed record, as a total state update. -/
def applySharkTyped (size : ℝ) (idx : Nat) (s : SharkData) (m : Markers) :
    Markers :=
  fun j => if j = idx then some (applyOne size s (m idx)) else m j

/-- The loop over a well-formed batch starting at index `idx`. -/
def onBatchFrom (size : ℝ) : List SharkData → Nat → Markers → Markers
  | [], _, m => m
  | s :: rest, idx, m =>
      onBatchFrom size rest (idx + 1) (applySharkTyped size idx s m)

/-- Processing a well-formed batch: the `forEach` from index `0`. -/
def onBatch (size : ℝ) (B : List SharkData) (m : Markers) : Markers :=
  onBatchFrom size B 0 m

/-- Processing a sequence of well-formed batches (each with the size in
effect when it arrived). -/
def applyBatches (L : List (ℝ × List SharkData)) (m : Markers) : Markers :=
  L.foldl (fun acc p => onBatch p.1 p.2 acc) m

/-- The largest batch length in a sequence of batches. -/
def maxBatchLen (L : List (ℝ × List SharkData)) : Nat :=
  L.foldr (fun p acc => max p.2.length acc) 0

/-! ## Characterization of the typed batch loop -/

/-- Indices below the loop's starting index are never touched. -/
theorem onBatchFrom_lt (size : ℝ) (B : List SharkData) :
    ∀ idx j (m : Markers), j < idx → onBatchFrom size B idx m j = m j := by
  induction B with
  | nil => intro idx j m _; rfl
  | cons s rest ih =>
      intro idx j m h
      rw [onBatchFrom, ih (idx + 1) j _ (Nat.lt_succ_of_lt h)]
      have hne : j ≠ idx := Nat.ne_of_lt h
      simp [applySharkTyped, hne]

/-- Indices at or beyond `idx + length` are never touched. -/
theorem onBatchFrom_ge (size : ℝ) (B : List SharkData) :
    ∀ idx j (m : Markers), idx + B.length ≤ j → onBatchFrom size B idx m j = m j := by
  induction B with
  | nil => intro idx j m _; rfl
  | cons s rest ih =>
      intro idx j m h
      simp only [List.length_cons] at h
      rw [onBatchFrom, ih (idx + 1) j _ (by omega)]
      have hne : j ≠ idx := by omega
      simp [applySharkTyped, hne]

/-- The loop writes slot `j` exactly once, applying record `j - idx` to the
slot's previous content. -/
theorem onBatchFrom_getElem (size : ℝ) (B : List SharkData) :
    ∀ idx j (m : Markers) (s : SharkData), idx ≤ j → B[j - idx]? = some s →
      onBatchFrom size B idx m j = some (applyOne size s (m j)) := by
  induction B with
  | nil => intro idx j m s _ hs; simp at hs
  | cons t rest ih =>
      intro idx j m s hij hs
      rcases Nat.eq_or_lt_of_le hij with heq | hlt
      · subst heq
        simp only [Nat.sub_self, List.getElem?_cons_zero, Option.some.injEq] at hs
        subst hs
        rw [onBatchFrom, onBatchFrom_lt size rest (idx + 1) idx _ (Nat.lt_succ_self idx)]
        simp [applySharkTyped]
      · have hd : j - idx = (j - (idx + 1)) + 1 := by omega
        rw [hd] at hs
        simp only [List.getElem?_cons_succ] at hs
        rw [onBatchFrom, ih (idx + 1) j _ s (by omega) hs]
        have hne : j ≠ idx := by omega
        simp [applySharkTyped, hne]

/-- `onBatch` at a covered index: record `j` is applied to slot `j`. -/
theorem onBatch_getElem (size : ℝ) (B : List SharkData) (m : Markers) (j : Nat)
    (s : SharkData) (hs : B[j]? = some s) :
    onBatch size B m j = some (applyOne size s (m j)) := by
  have h := onBatchFrom_getElem size B 0 j m s (Nat.zero_le j) (by simpa using hs)
  simpa [onBatch] using h

/-- `onBatch` at an index beyond the batch: the slot is untouched. -/
theorem onBatch_out (size : ℝ) (B : List SharkData) (m : Markers) (j : Nat)
    (h : B.length ≤ j) : onBatch size B m j = m j := by
  have h2 := onBatchFrom_ge size B 0 j m (by simpa using h)
  simpa [onBatch] using h2

/-! ## Refinement: the raw handler on well-formed input -/

/-- On a well-formed record the `forEach` body never throws and acts as the
typed update. -/
theorem applyShark_toJs (size : ℝ) (idx : Nat) (s : SharkData) (m : Markers) :
    applyShark size idx s.toJs m = .ok (applySharkTyped size idx s m) := rfl

/-- The raw loop on a well-formed batch never throws and equals the typed
loop. -/
theorem runSharks_map_toJs (size : ℝ) (B : List SharkData) :
    ∀ idx (m : Markers),
      runSharks size (B.map SharkData.toJs) idx m = (onBatchFrom size B idx m, false) := by
  induction B with
  | nil => intro idx m; rfl
  | cons s rest ih =>
      intro idx m
      simp only [List.map_cons, runSharks, applyShark_toJs, onBatchFrom]
      exact ih (idx + 1) _

/-- The whole handler on a well-formed message: no diagnostic, and the
marker map is the typed batch application at the effective zoom's size. -/
theorem onMessage_mkMessage (mz : Option ℚ) (pz : ℚ) (m : Markers) (B : List SharkData) :
    onMessage mz pz m (some (mkMessage B)) =
      (onBatch (getMarkerSize ((effectiveZoom mz pz : ℚ) : ℝ)) B m, 0) := by
  have hf : jsField (mkMessage B) "sharks" = .ok (.arr (B.map SharkData.toJs)) := rfl
  simp [onMessage, onMessageTry, hf, truthy, isArray, asArray, runSharks_map_toJs, onBatch]

/-! ## The size function -/

/-- `getMarkerSize` is strictly increasing (base `1.3 > 1`, coefficient
`10 > 0`). -/
theorem strictMono_getMarkerSize : StrictMono getMarkerSize := by
  intro a b hab
  unfold getMarkerSize
  have h13 : (1 : ℝ) < 1.3 := by norm_num
  have hlt : (1.3 : ℝ) ^ (a - 2) < (1.3 : ℝ) ^ (b - 2) :=
    (Real.rpow_lt_rpow_left_iff h13).2 (by linarith)
  linarith

/-- At the reference zoom `2` the size is the base size `10`. -/
theorem getMarkerSize_ref : getMarkerSize 2 = 10 := by
  unfold getMarkerSize
  rw [show (2 : ℝ) - 2 = 0 by norm_num, Real.rpow_zero]
  norm_num

/-- C5: the size function `sizeFn(zoom) = 10 * 1.3^(zoom - 2)` has growth
factor `1.3 > 1`, is strictly increasing in zoom, and takes the value
`baseSize = 10` at the reference zoom `2`. -/
theorem claim_size_monotone :
    (1 : ℝ) < 1.3 ∧ StrictMono getMarkerSize ∧ getMarkerSize 2 = 10 :=
  ⟨by norm_num, strictMono_getMarkerSize, getMarkerSize_ref⟩

/-! ## Positional reconciliation claims -/

/-- C1: identity assignment is positional — for every batch, the record at
index `idx` is applied to the marker tracked under key `idx`: the marker is
updated when it already exists and created/registered otherwise, whatever
any earlier batch put in the other slots (the starting state `m` is
arbitrary). -/
theorem claim_positional_identity (size : ℝ) (B : List SharkData) (m : Markers)
    (idx : Nat) (h : idx < B.length) :
    (∀ mk, m idx = some mk →
        onBatch size B m idx = some (updateMarker B[idx] mk)) ∧
    (m idx = none →
        onBatch size B m idx = some (createMarker size B[idx])) := by
  have hs : B[idx]? = some B[idx] := List.getElem?_eq_getElem h
  have hmain := onBatch_getElem size B m idx _ hs
  constructor
  · intro mk hmk
    rw [hmain, hmk]
    rfl
  · intro hmk
    rw [hmain, hmk]
    rfl

/-- Witness for C1 at a concrete one-record batch on the empty state. -/
theorem claim_positional_identity_witness :
    onBatch 10 [⟨1, 2, 0, 0⟩] emptyMarkers 0 =
      some (createMarker 10 ([(⟨1, 2, 0, 0⟩ : SharkData)])[0]) :=
  (claim_positional_identity 10 [⟨1, 2, 0, 0⟩] emptyMarkers 0 (by norm_num)).2 rfl

/-- C2: last write wins — after two batches in sequence, the marker at any
index `i` covered by the second batch carries exactly the second batch's
record `i`'s position and its rotation converted to degrees, whatever the
first batch contained. -/
theorem claim_last_write_wins (s1 s2 : ℝ) (B1 B2 : List SharkData) (m : Markers)
    (i : Nat) (h : i < B2.length) :
    ∃ mk, onBatch s2 B2 (onBatch s1 B1 m) i = some mk ∧
      mk.coordinates = (.num (B2[i]).x, .num (B2[i]).y) ∧
      mk.markerRotation = .val (((B2[i]).rotation_rad : ℝ) * 180 / Real.pi) := by
  have hs : B2[i]? = some B2[i] := List.getElem?_eq_getElem h
  refine ⟨applyOne s2 B2[i] (onBatch s1 B1 m i),
    onBatch_getElem s2 B2 (onBatch s1 B1 m) i _ hs, ?_, ?_⟩ <;>
    cases onBatch s1 B1 m i <;> rfl

/-- Witness for C2 at two concrete one-record batches. -/
theorem claim_last_write_wins_witness :
    ∃ mk, onBatch 10 [⟨5, 5, 1, 1⟩] (onBatch 10 [⟨1, 2, 0, 0⟩] emptyMarkers) 0 = some mk ∧
      mk.coordinates =
        (.num (([(⟨5, 5, 1, 1⟩ : SharkData)])[0]).x, .num (([(⟨5, 5, 1, 1⟩ : SharkData)])[0]).y) ∧
      mk.markerRotation =
        .val (((([(⟨5, 5, 1, 1⟩ : SharkData)])[0]).rotation_rad : ℝ) * 180 / Real.pi) :=
  claim_last_write_wins 10 10 [⟨1, 2, 0, 0⟩] [⟨5, 5, 1, 1⟩] emptyMarkers 0 (by norm_num)

/-- C6: on both the update and the create path, the rotation written to the
marker is exactly `rotation_rad * 180 / π`, for any `rotation_rad` in
`[0, 2π)`. -/
theorem claim_rotation_conversion (size : ℝ) (B : List SharkData) (m : Markers)
    (idx : Nat) (h : idx < B.length)
    (h0 : 0 ≤ (B[idx]).rotation_rad) (h2 : ((B[idx]).rotation_rad : ℝ) < 2 * Real.pi) :
    ∃ mk, onBatch size B m idx = some mk ∧
      mk.markerRotation = .val (((B[idx]).rotation_rad : ℝ) * 180 / Real.pi) := by
  have hs : B[idx]? = some B[idx] := List.getElem?_eq_getElem h
  refine ⟨applyOne size B[idx] (m idx), onBatch_getElem size B m idx _ hs, ?_⟩
  cases m idx <;> rfl

/-- Witness for C6 at a concrete record with rotation `0`. -/
theorem claim_rotation_conversion_witness :
    (0 : ℚ) ≤ 0 ∧
    ∃ mk, onBatch 10 [⟨1, 2, 0, 0⟩] emptyMarkers 0 = some mk ∧
      mk.markerRotation =
        .val (((([(⟨1, 2, 0, 0⟩ : SharkData)])[0]).rotation_rad : ℝ) * 180 / Real.pi) :=
  ⟨le_refl 0,
   claim_rotation_conversion 10 [⟨1, 2, 0, 0⟩] emptyMarkers 0 (by norm_num)
     (by norm_num) (by simpa using Real.two_pi_pos)⟩

/-- C8: replaying an identical batch immediately (same size, i.e. no zoom
change in between) is idempotent: the whole marker state is unchanged by
the second application. -/
theorem claim_idempotent (size : ℝ) (B : List SharkData) (m : Markers) :
    onBatch size B (onBatch size B m) = onBatch size B m := by
  funext j
  by_cases hj : j < B.length
  · have hs : B[j]? = some B[j] := List.getElem?_eq_getElem hj
    rw [onBatch_getElem size B (onBatch size B m) j _ hs,
      onBatch_getElem size B m j _ hs]
    cases m j <;> rfl
  · have hge : B.length ≤ j := Nat.le_of_not_lt hj
    rw [onBatch_out size B (onBatch size B m) j hge, onBatch_out size B m j hge]

/-- C9: the update path only touches position and rotation — the updated
marker keeps its previous width and height; sizes change on the zoom-change
pass, which rewrites every tracked marker's width and height to the size at
the map's current zoom. -/
theorem claim_update_keeps_size (size : ℝ) (B : List SharkData) (m : Markers)
    (j : Nat) (mk : Marker) (hm : m j = some mk) (h : j < B.length) :
    onBatch size B m j = some (updateMarker B[j] mk) ∧
    (updateMarker B[j] mk).markerWidth = mk.markerWidth ∧
    (updateMarker B[j] mk).markerHeight = mk.markerHeight ∧
    (∀ (z : ℚ) (mm : Markers) (k : Nat),
        updateAllMarkerSizes (some z) mm k =
          (mm k).map fun mk2 =>
            { mk2 with
              markerWidth := getMarkerSize (z : ℝ)
              markerHeight := getMarkerSize (z : ℝ) }) := by
  have hs : B[j]? = some B[j] := List.getElem?_eq_getElem h
  refine ⟨?_, rfl, rfl, fun z mm k => rfl⟩
  rw [onBatch_getElem size B m j _ hs, hm]
  rfl

/-- Witness for C9 at a concrete pre-existing marker. -/
theorem claim_update_keeps_size_witness :
    onBatch 10 [⟨5, 5, 1, 1⟩]
        (fun j => if j = 0 then some (⟨(.num 0, .num 0), 10, 10, .val 0⟩ : Marker) else none) 0 =
      some (updateMarker ([(⟨5, 5, 1, 1⟩ : SharkData)])[0]
        (⟨(.num 0, .num 0), 10, 10, .val 0⟩ : Marker)) ∧
    (updateMarker ([(⟨5, 5, 1, 1⟩ : SharkData)])[0]
        (⟨(.num 0, .num 0), 10, 10, .val 0⟩ : Marker)).markerWidth =
      (⟨(.num 0, .num 0), 10, 10, .val 0⟩ : Marker).markerWidth ∧
    (updateMarker ([(⟨5, 5, 1, 1⟩ : SharkData)])[0]
        (⟨(.num 0, .num 0), 10, 10, .val 0⟩ : Marker)).markerHeight =
      (⟨(.num 0, .num 0), 10, 10, .val 0⟩ : Marker).markerHeight ∧
    (∀ (z : ℚ) (mm : Markers) (k : Nat),
        updateAllMarkerSizes (some z) mm k =
          (mm k).map fun mk2 =>
            { mk2 with
              markerWidth := getMarkerSize (z : ℝ)
              markerHeight := getMarkerSize (z : ℝ) }) :=
  claim_update_keeps_size 10 [⟨5, 5, 1, 1⟩]
    (fun j => if j = 0 then some (⟨(.num 0, .num 0), 10, 10, .val 0⟩ : Marker) else none)
    0 (⟨(.num 0, .num 0), 10, 10, .val 0⟩ : Marker) rfl (by norm_num)

/-! ## Domain growth -/

/-- The slot `j` is occupied after a batch iff it was occupied before or the
batch covers index `j`. -/
theorem onBatch_isSome (size : ℝ) (B : List SharkData) (m : Markers) (j : Nat) :
    (onBatch size B m j).isSome = ((m j).isSome || decide (j < B.length)) := by
  by_cases hj : j < B.length
  · have hs : B[j]? = some B[j] := List.getElem?_eq_getElem hj
    rw [onBatch_getElem size B m j _ hs]
    simp [hj]
  · rw [onBatch_out size B m j (Nat.le_of_not_lt hj)]
    simp [hj]

/-- Occupancy after a sequence of batches, from an arbitrary start. -/
theorem applyBatches_isSome (L : List (ℝ × List SharkData)) :
    ∀ (m : Markers) (j : Nat),
      (applyBatches L m j).isSome = ((m j).isSome || decide (j < maxBatchLen L)) := by
  induction L with
  | nil => intro m j; simp [applyBatches, maxBatchLen]
  | cons p L ih =>
      intro m j
      have h1 : applyBatches (p :: L) m = applyBatches L (onBatch p.1 p.2 m) := rfl
      have h2 : maxBatchLen (p :: L) = max p.2.length (maxBatchLen L) := rfl
      rw [h1, ih, onBatch_isSome, h2]
      by_cases ha : j < p.2.length <;> by_cases hb : j < maxBatchLen L <;>
        simp [ha, hb, lt_max_iff]

/-- C7: the tracked set never shrinks — a slot occupied before a batch is
occupied after it, a batch occupies exactly the slots it covers in
addition, and after any sequence of batches from the empty state the
occupied slots are exactly `0 .. maxBatchLen - 1`, even when a later batch
is shorter than an earlier one. -/
theorem claim_no_shrink :
    (∀ (size : ℝ) (B : List SharkData) (m : Markers) (j : Nat),
        (onBatch size B m j).isSome = ((m j).isSome || decide (j < B.length))) ∧
    (∀ (L : List (ℝ × List SharkData)) (j : Nat),
        (applyBatches L emptyMarkers j).isSome = decide (j < maxBatchLen L)) := by
  refine ⟨onBatch_isSome, fun L j => ?_⟩
  rw [applyBatches_isSome L emptyMarkers j]
  simp [emptyMarkers]

/-! ## The zoom fallback -/

/-- C10: when the rendering surface reports zoom `0` (a falsy value) or the
map handle is absent, the `getZoom() || zoom` fallback makes newly created
markers use the component's default zoom `2`: they get size
`sizeFn(2) = baseSize = 10`, not `sizeFn(0)`. -/
theorem claim_default_zoom_fallback (mz : Option ℚ) (m : Markers)
    (B : List SharkData) (idx : Nat)
    (hmz : mz = some 0 ∨ mz = none) (h : idx < B.length) (habs : m idx = none) :
    (onMessage mz 2 m (some (mkMessage B))).1 idx =
      some (createMarker (getMarkerSize 2) B[idx]) ∧
    getMarkerSize 2 = 10 ∧ getMarkerSize 0 ≠ getMarkerSize 2 := by
  have hz : effectiveZoom mz 2 = 2 := by
    rcases hmz with h0 | h0 <;> subst h0 <;> simp [effectiveZoom]
  have hcast : ((effectiveZoom mz 2 : ℚ) : ℝ) = 2 := by
    rw [hz]; norm_num
  have hs : B[idx]? = some B[idx] := List.getElem?_eq_getElem h
  refine ⟨?_, getMarkerSize_ref,
    ne_of_lt (strictMono_getMarkerSize (by norm_num : (0 : ℝ) < 2))⟩
  rw [onMessage_mkMessage, hcast]
  show onBatch (getMarkerSize 2) B m idx = _
  rw [onBatch_getElem (getMarkerSize 2) B m idx _ hs, habs]
  rfl

/-- Witness for C10 at map zoom `0`, one fresh record, empty state. -/
theorem claim_default_zoom_fallback_witness :
    (onMessage (some 0) 2 emptyMarkers (some (mkMessage [⟨1, 2, 0, 0⟩]))).1 0 =
      some (createMarker (getMarkerSize 2) ([(⟨1, 2, 0, 0⟩ : SharkData)])[0]) ∧
    getMarkerSize 2 = 10 ∧ getMarkerSize 0 ≠ getMarkerSize 2 :=
  claim_default_zoom_fallback (some 0) emptyMarkers [⟨1, 2, 0, 0⟩] 0
    (Or.inl rfl) (by norm_num) rfl

/-! ## Discard behaviour of malformed messages -/

/-- C3 counterexample: the message `{"notSharks": []}` parses, fails the
`!data.sharks || !Array.isArray(data.sharks)` guard and is discarded by a
bare `return` — zero marker mutations but also zero logged diagnostics,
not the one diagnostic the claim requires. -/
theorem claim_malformed_logging_cex :
    onMessage (some 3) 2 emptyMarkers (some (.obj [("notSharks", .arr [])])) =
      (emptyMarkers, 0) ∧
    (onMessage (some 3) 2 emptyMarkers (some (.obj [("notSharks", .arr [])]))).2 ≠ 1 :=
  ⟨rfl, by decide⟩

/-- C3 (amended): an unparsable message, and a parsed `null` whose property
access throws, are discarded with exactly one logged diagnostic; a parsed
message whose `sharks` field is absent or not an array is discarded
silently, with zero diagnostics.  In every case the marker state is
unchanged and no exception escapes the handler. -/
theorem claim_discard_behavior (mz : Option ℚ) (pz : ℚ) (m : Markers) :
    onMessage mz pz m none = (m, 1) ∧
    (∀ data, jsField data "sharks" = .error () →
        onMessage mz pz m (some data) = (m, 1)) ∧
    (∀ data v, jsField data "sharks" = .ok v → isArray v = false →
        onMessage mz pz m (some data) = (m, 0)) := by
  refine ⟨rfl, fun data hd => ?_, fun data v hv ha => ?_⟩
  · simp [onMessage, onMessageTry, hd]
  · have ht : (!truthy v || !isArray v) = true := by simp [ha]
    simp [onMessage, onMessageTry, hv, ht]

/-- Witness for the amended C3: a parsed string message has no `sharks`
array and is discarded silently without touching the state. -/
theorem claim_discard_behavior_witness :
    onMessage (some 3) 2 emptyMarkers (some (.str "hello")) = (emptyMarkers, 0) :=
  (claim_discard_behavior (some 3) 2 emptyMarkers).2.2 (.str "hello") .undefined rfl rfl

/-! ## Non-atomic batch application -/

/-- C4 counterexample: on the batch `[wellformed, {}]` from the empty
state, the handler creates marker `0`, then throws on record `1` (whose
`position` is `undefined`) and the `catch` logs once — so the state is
neither left unchanged nor fully applied: the batch is not atomic. -/
theorem claim_atomicity_cex :
    ((onMessage (some 3) 2 emptyMarkers
        (some (.obj [("sharks", .arr [SharkData.toJs ⟨1, 2, 0, 0⟩, .obj []])]))).1 0).isSome
      = true ∧
    (onMessage (some 3) 2 emptyMarkers
        (some (.obj [("sharks", .arr [SharkData.toJs ⟨1, 2, 0, 0⟩, .obj []])]))).1 1 = none ∧
    (onMessage (some 3) 2 emptyMarkers
        (some (.obj [("sharks", .arr [SharkData.toJs ⟨1, 2, 0, 0⟩, .obj []])]))).2 = 1 :=
  ⟨rfl, rfl, rfl⟩

/-- The raw loop on a well-formed prefix followed by anything: the prefix
is applied first, positions advanced by its length. -/
theorem runSharks_append (size : ℝ) (B : List SharkData) :
    ∀ (l : List JsValue) (idx : Nat) (m : Markers),
      runSharks size (B.map SharkData.toJs ++ l) idx m =
        runSharks size l (idx + B.length) (onBatchFrom size B idx m) := by
  induction B with
  | nil => intro l idx m; simp [onBatchFrom]
  | cons s rest ih =>
      intro l idx m
      simp only [List.map_cons, List.cons_append, runSharks, applyShark_toJs,
        onBatchFrom, List.length_cons, List.append_eq]
      rw [ih l (idx + 1) (applySharkTyped size idx s m)]
      have harith : idx + 1 + rest.length = idx + (rest.length + 1) := by omega
      rw [harith]

/-- C4 (amended): a batch is applied sequentially, not atomically — the
records strictly before the first malformed record take full effect, the
malformed record and everything after it have no effect, and the thrown
error is caught and logged once; no exception propagates to the caller. -/
theorem claim_batch_stops_at_malformed (mz : Option ℚ) (pz : ℚ) (m : Markers)
    (good : List SharkData) (bad : JsValue) (rest : List JsValue)
    (hbad : ∀ (size : ℝ) (idx : Nat) (mm : Markers),
        applyShark size idx bad mm = .error ()) :
    onMessage mz pz m
        (some (.obj [("sharks", .arr (good.map SharkData.toJs ++ bad :: rest))])) =
      (onBatch (getMarkerSize ((effectiveZoom mz pz : ℚ) : ℝ)) good m, 1) := by
  have hf : jsField (.obj [("sharks", .arr (good.map SharkData.toJs ++ bad :: rest))]) "sharks"
      = .ok (.arr (good.map SharkData.toJs ++ bad :: rest)) := rfl
  simp only [onMessage, onMessageTry, hf, truthy, isArray, asArray, Bool.not_true,
    Bool.or_self, Bool.false_or, if_false]
  rw [runSharks_append _ good (bad :: rest) 0 m]
  simp only [runSharks, hbad]
  rfl

/-- Witness for the amended C4 at a concrete two-record batch whose second
record is `{}` (missing `position`). -/
theorem claim_batch_stops_at_malformed_witness :
    onMessage (some 3) 2 emptyMarkers
        (some (.obj [("sharks",
          .arr ([(⟨1, 2, 0, 0⟩ : SharkData)].map SharkData.toJs ++ JsValue.obj [] :: []))])) =
      (onBatch (getMarkerSize ((effectiveZoom (some 3) 2 : ℚ) : ℝ)) [⟨1, 2, 0, 0⟩] emptyMarkers,
        1) :=
  claim_batch_stops_at_malformed (some 3) 2 emptyMarkers [⟨1, 2, 0, 0⟩] (JsValue.obj []) []
    (fun _ _ _ => rfl)

end
